import Mathlib

/-!
Verification of the nope.db storage engine.

This file gives a shallow embedding of the `StorageManager` class of the
nope.db repository (the file `src/utils.ts`, re-exported through the `NopeDB`
facade in `src/app.ts`) and proves or refutes the specified properties of the
path-addressed document store and its serialized operation queue.

Modelling conventions:
* A JSON document is the inductive `JValue`.  Objects are association lists
  in insertion order (JavaScript objects built by `JSON.parse` and by the
  store's own mutations have no duplicate keys and no observable prototype
  properties; the model ignores the prototype chain).  Numbers carry exact
  integers as an identification of double values, not of double
  *arithmetic*: no theorem below depends on the result of an engine
  addition — the one claimed law that does (accumulation associativity)
  is reported as not statable precisely because IEEE-754 rounding breaks
  it while an exact model would validate it.
* Arrays follow the ECMAScript property rules the source exercises: a
  canonical decimal segment below `2^32 - 1` is an element index
  (`parseIndex`), the segment `"length"` reads the array's own length and
  an assignment to it resizes the array or throws a `RangeError`
  (`lengthValue`), and any other segment is a non-index property that
  `JSON.stringify` drops.
* The document file is `FileState`: absent, containing unparsable bytes,
  inaccessible, or containing a serialized value.  `JSON.parse`/`stringify`
  are abstracted by storing the parsed tree itself; the serialization
  effects observable through the public API (dropped non-index array
  properties, holes serializing as `null`) are folded into `findAndSet`
  and `deleteWalk`, which therefore map documents to their next
  *persisted* form.  A write on a primitive root throws a strict-mode
  `TypeError` (the sources are ES modules); engine exceptions are the
  `none`/`thrown` outcomes and surface as `Err.jsException`.
* Each public operation is a pure function from the database state to an
  `OpResult`: the new state, the ordered list of file-system accesses it
  performed, and its outcome (`Except`).
* The promise chain built by `_enqueue` is embedded in the `Queue` section:
  a settled promise is a state paired with an `Except` outcome, and the
  combinators `settle` (for `.catch(() => {})`) and `thenRun` (for
  `.then(task)`) are the code's two primitives.
-/

namespace NopeDB

/-- A JSON-compatible value: the document tree of the store. -/
inductive JValue : Type where
  | null : JValue
  | bool (b : Bool) : JValue
  | num (n : Int) : JValue
  | str (s : String) : JValue
  | arr (xs : List JValue) : JValue
  | obj (fields : List (String × JValue)) : JValue

/-- `typeof v === 'object' && v !== null` : holds for objects and arrays. -/
def JValue.isObjLike : JValue → Bool
  | .obj _ => true
  | .arr _ => true
  | _ => false

/-- `v === null` (and, identically in the model, the not-found sentinel). -/
def JValue.isNull : JValue → Bool
  | .null => true
  | _ => false

/-- Property read on a plain object: first binding of the key, if any. -/
def getField : List (String × JValue) → String → Option JValue
  | [], _ => none
  | (k, v) :: rest, key => if k = key then some v else getField rest key

/-- Property write on a plain object: replace the first binding of the key
in place, or append a new binding (JavaScript insertion order). -/
def setField : List (String × JValue) → String → JValue → List (String × JValue)
  | [], key, value => [(key, value)]
  | (k, v) :: rest, key, value =>
      if k = key then (k, value) :: rest else (k, v) :: setField rest key value

/-- Accumulate the value of a digit string; `none` on a non-digit. -/
def digitsVal : List Char → Nat → Option Nat
  | [], acc => some acc
  | c :: cs, acc =>
      if c.isDigit then digitsVal cs (acc * 10 + (c.toNat - '0'.toNat)) else none

/-- A canonical array index: the strings JavaScript treats as array indices
when used as property keys on an array — a decimal numeral without leading
zero whose value is below `2^32 - 1` (ECMAScript array indices stop at
`4294967294`; the string `"4294967295"` is an ordinary non-index property
key). -/
def parseIndex (s : String) : Option Nat :=
  match s.data with
  | [] => none
  | ['0'] => some 0
  | c :: cs =>
      if c = '0' then none
      else
        match digitsVal (c :: cs) 0 with
        | some n => if n < 4294967295 then some n else none
        | none => none

/-- `arr[i] = v` on an array, as observed after `JSON.stringify`: in-range
indices are overwritten; writing past the end fills the holes with `null`. -/
def arrSetIdx : List JValue → Nat → JValue → List JValue
  | _ :: xs, 0, v => v :: xs
  | x :: xs, Nat.succ i, v => x :: arrSetIdx xs i v
  | [], 0, v => [v]
  | [], Nat.succ i, v => .null :: arrSetIdx [] i v

/-- `arr.length = n`: truncate the array or extend it with holes, which
serialize as `null`.  Callers guarantee the length bound `n < 2^32`. -/
def arrResize (xs : List JValue) (n : Nat) : List JValue :=
  xs.take n ++ List.replicate (n - xs.length) .null

/-- The value of a non-empty digit run (leading zeros allowed here: string
numeric conversion, unlike property-key canonicity, accepts them). -/
def decDigits : List Char → Option Nat
  | [] => none
  | c :: cs => digitsVal (c :: cs) 0

/-- The new length accepted by an assignment `arr.length = v`, following
the ECMAScript rule that `ToUint32(v)` must agree with `ToNumber(v)` (else
a `RangeError` is thrown, modelled as `none`).  Numbers, `null` and
booleans follow `ToUint32` exactly; a string converts when it is a
blank-padded, optionally plus-signed decimal numeral — exotic string
numeric forms (exponents, hex, signed zero) and object-to-primitive
coercions are outside the modelled fragment and map to `none`. -/
def lengthValue : JValue → Option Nat
  | .num n => if 0 ≤ n ∧ n < 4294967296 then some n.toNat else none
  | .null => some 0
  | .bool b => some (if b then 1 else 0)
  | .str s =>
      match ((s.data.dropWhile Char.isWhitespace).reverse.dropWhile
          Char.isWhitespace).reverse with
      | [] => some 0
      | '+' :: rest =>
          match decDigits rest with
          | some n => if n < 4294967296 then some n else none
          | none => none
      | t =>
          match decDigits t with
          | some n => if n < 4294967296 then some n else none
          | none => none
  | _ => none

/-- Split a string on every occurrence of the separator character
(`id.split(this.separator)` for the store's single-character separator). -/
def splitSep (sep : Char) : List Char → List (List Char)
  | [] => [[]]
  | c :: rest =>
      if c = sep then [] :: splitSep sep rest
      else
        match splitSep sep rest with
        | [] => [[c]]
        | p :: ps => (c :: p) :: ps

/-- The ordered path segments of a key (`id.split(separator)`). -/
def partsOf (sep : Char) (id : String) : List String :=
  (splitSep sep id.data).map fun cs => String.mk cs

/-- Adjacent occurrence of the doubled separator
(`id.includes(separator + separator)`). -/
def hasDoubledSep (sep : Char) : List Char → Bool
  | a :: b :: rest => (a = sep && b = sep) || hasDoubledSep sep (b :: rest)
  | _ => false

/-- `StorageManager._validateID`, as a predicate: a key is valid when it is a
non-empty string that does not start or end with the separator and has no
doubled separator. -/
def validateID (sep : Char) (id : String) : Bool :=
  !(id.data = []) &&
  !(id.data.head? = some sep) &&
  !(id.data.getLast? = some sep) &&
  !(hasDoubledSep sep id.data)

/-- The walk of `StorageManager._find` before the final `?? null`:
`some v` when the walk reaches a value, `none` when a segment is missing or
the current node is not an object (`typeof current !== 'object'` or `null`).
Arrays are objects in JavaScript: the segment `"length"` reads the array's
own `length` property (a number), and a canonical index segment reads the
element. -/
def findRaw : JValue → List String → Option JValue
  | v, [] => some v
  | .obj fs, p :: rest =>
      match getField fs p with
      | some c => findRaw c rest
      | none => none
  | .arr xs, p :: rest =>
      if p = "length" then findRaw (.num (xs.length : Int)) rest
      else
        match parseIndex p with
        | some i =>
            match xs[i]? with
            | some c => findRaw c rest
            | none => none
        | none => none
  | _, _ :: _ => none

/-- `StorageManager._find` (after validation): the value at the path, with
`return current ?? null` collapsing both an absent key and a stored `null`
to the `null` sentinel. -/
def find (data : JValue) (parts : List String) : JValue :=
  (findRaw data parts).getD .null

/-- The node descended into by `_findAndSet` at an intermediate segment:
the existing child if it is an object or array, else a fresh empty map
(`if (typeof current[part] !== 'object' || current[part] === null)
current[part] = {}`). -/
def childOf : Option JValue → JValue
  | some c => if c.isObjLike then c else .obj []
  | none => .obj []

/-- `StorageManager._findAndSet` (after validation), as a transformation of
the persisted document: walk the segments, descending through objects and
arrays and replacing any non-object intermediate with a fresh map, then
assign the value at the final segment; `some` of the next persisted
document, or `none` when the engine throws and the task rejects with an
uncaught exception.  The JavaScript effects at the boundary:
* a final-segment write on an object, or at a canonical index of an array,
  is stored (past-the-end index writes leave holes that serialize as
  `null`);
* `arr["length"] = v` resizes the array when `v` converts to a valid
  length, else throws a `RangeError` (`none`);
* a non-index, non-`length` array property write succeeds in memory but is
  dropped by `JSON.stringify`, so the persisted document is unchanged (the
  rest of such a walk only builds fresh plain objects, which cannot throw);
* an intermediate `length` segment on an array assigns `{}` to `length`,
  which is always a `RangeError` (`none`);
* a property write on a primitive (a non-object root) throws a `TypeError`
  in strict mode — these source files are ES modules (`none`). -/
def findAndSet : JValue → List String → JValue → Option JValue
  | data, [], _ => some data
  | .obj fs, [p], v => some (.obj (setField fs p v))
  | .arr xs, [p], v =>
      if p = "length" then
        match lengthValue v with
        | some n => some (.arr (arrResize xs n))
        | none => none
      else
        match parseIndex p with
        | some i => some (.arr (arrSetIdx xs i v))
        | none => some (.arr xs)
  | _, [_], _ => none
  | .obj fs, p :: q :: rest, v =>
      match findAndSet (childOf (getField fs p)) (q :: rest) v with
      | some c' => some (.obj (setField fs p c'))
      | none => none
  | .arr xs, p :: q :: rest, v =>
      if p = "length" then none
      else
        match parseIndex p with
        | some i =>
            match findAndSet (childOf (xs[i]?)) (q :: rest) v with
            | some c' => some (.arr (arrSetIdx xs i c'))
            | none => none
        | none => some (.arr xs)
  | _, _ :: _ :: _, _ => none

/-- The on-disk state of one file: missing (`ENOENT`), present but not valid
JSON (`JSON.parse` raises `SyntaxError`), unreadable for another reason, or
holding a serialized document. -/
inductive FileState : Type where
  | absent : FileState
  | malformed : FileState
  | inaccessible : FileState
  | stored (v : JValue) : FileState

/-- The persistent state visible to one store instance: the primary database
file and the file at the (fixed) backup path. -/
structure DB : Type where
  primary : FileState
  backup : FileState

/-- A file-system access performed by an operation, in order. -/
inductive Ev : Type where
  | readP : Ev
  | writeP : Ev
  | readB : Ev
deriving DecidableEq

/-- The error taxonomy of `StorageManager`: one constructor per distinct
`DatabaseError` message, plus `jsException` for an engine `TypeError` or
`RangeError` thrown inside a task (not a `DatabaseError`; the caller's
promise rejects with it all the same). -/
inductive Err : Type where
  | undefinedID : Err
  | undefinedValue : Err
  | nonValidID : Err
  | mustBeANumber : Err
  | dataNotANumber : Err
  | mustBeArray : Err
  | parseError : Err
  | ioError : Err
  | clearConfirm : Err
  | invalidBackupPath : Err
  | backupLoadFailed : Err
  | jsException : Err
deriving DecidableEq

/-- The observable behaviour of one queued operation: the database state it
leaves behind, the file accesses it performed in order, and its outcome. -/
structure OpResult (α : Type) : Type where
  db : DB
  events : List Ev
  out : Except Err α

/-- `StorageManager._read`: load and parse the primary file.  A missing file
is self-healed by writing an empty map (through the write primitive) and
returning an empty map; unparsable bytes fail with the parse error; any
other read fault fails with an I/O error. -/
def read (db : DB) : OpResult JValue :=
  match db.primary with
  | .absent => ⟨{ db with primary := .stored (.obj []) }, [.readP, .writeP], .ok (.obj [])⟩
  | .malformed => ⟨db, [.readP], .error .parseError⟩
  | .inaccessible => ⟨db, [.readP], .error .ioError⟩
  | .stored v => ⟨db, [.readP], .ok v⟩

/-- `StorageManager._write`: serialize the full document and replace the
primary file contents. -/
def write (d : JValue) (db : DB) : DB × List Ev :=
  ({ db with primary := .stored d }, [.writeP])

/-- `StorageManager.get`: read the whole document and resolve the path
(validation happens inside `_find`); `null` when not found. -/
def get (sep : Char) (id : String) (db : DB) : OpResult JValue :=
  if id = "" then ⟨db, [], .error .undefinedID⟩ else
  match read db with
  | ⟨db1, evs, .error e⟩ => ⟨db1, evs, .error e⟩
  | ⟨db1, evs, .ok data⟩ =>
    if validateID sep id then ⟨db1, evs, .ok (find data (partsOf sep id))⟩
    else ⟨db1, evs, .error .nonValidID⟩

/-- `StorageManager.add`: check the operand is a number, read, resolve the
current value (`null`, i.e. not found, counts as `0`; any other non-number
is a type mismatch), store the sum and return it. -/
def add (sep : Char) (id : String) (value : Option JValue) (db : DB) : OpResult Int :=
  if id = "" then ⟨db, [], .error .undefinedID⟩ else
  match value with
  | none => ⟨db, [], .error .undefinedValue⟩
  | some (.num q) =>
    (match read db with
    | ⟨db1, evs, .error e⟩ => ⟨db1, evs, .error e⟩
    | ⟨db1, evs, .ok data⟩ =>
      if validateID sep id then
        match find data (partsOf sep id) with
        | .null =>
            (match findAndSet data (partsOf sep id) (.num q) with
            | some d2 =>
                let (db2, evs2) := write d2 db1
                ⟨db2, evs ++ evs2, .ok q⟩
            | none => ⟨db1, evs, .error .jsException⟩)
        | .num c =>
            (match findAndSet data (partsOf sep id) (.num (c + q)) with
            | some d2 =>
                let (db2, evs2) := write d2 db1
                ⟨db2, evs ++ evs2, .ok (c + q)⟩
            | none => ⟨db1, evs, .error .jsException⟩)
        | _ => ⟨db1, evs, .error .dataNotANumber⟩
      else ⟨db1, evs, .error .nonValidID⟩)
  | some _ => ⟨db, [], .error .mustBeANumber⟩

/-- `StorageManager.all`: read and return the whole document. -/
def all (db : DB) : OpResult JValue := read db

/-- `StorageManager.has`: resolve the path and compare against `null`. -/
def has (sep : Char) (id : String) (db : DB) : OpResult Bool :=
  if id = "" then ⟨db, [], .error .undefinedID⟩ else
  match read db with
  | ⟨db1, evs, .error e⟩ => ⟨db1, evs, .error e⟩
  | ⟨db1, evs, .ok data⟩ =>
    if validateID sep id then ⟨db1, evs, .ok (!(find data (partsOf sep id)).isNull)⟩
    else ⟨db1, evs, .error .nonValidID⟩

/-- `StorageManager.clear`: without `{ confirm: true }` fail before touching
the file; with it, overwrite the primary file with an empty map.  The
primary file is never read. -/
def clear (confirm : Option Bool) (db : DB) : OpResult Bool :=
  match confirm with
  | some true =>
      let (db1, evs) := write (.obj []) db
      ⟨db1, evs, .ok true⟩
  | _ => ⟨db, [], .error .clearConfirm⟩

/-- `StorageManager.loadBackup`: check the path, read and parse the backup
file (any failure there is wrapped in one load error), then overwrite the
primary file with the loaded document.  The primary file is never read. -/
def loadBackup (filePath : String) (db : DB) : OpResult Bool :=
  if filePath = "" then ⟨db, [], .error .invalidBackupPath⟩ else
  match db.backup with
  | .stored b =>
      let (db1, evs) := write b db
      ⟨db1, [.readB] ++ evs, .ok true⟩
  | _ => ⟨db, [.readB], .error .backupLoadFailed⟩

/-! ## The operation queue

`StorageManager._enqueue` chains every operation on one promise:

  `const nextTask = this.queue.catch(() => { }).then(task);
   this.queue = nextTask; return nextTask;`

A settled promise is modelled as a state paired with an `Except` outcome.
`settle` is `.catch(() => { })` (it turns any settlement, fulfilment or
rejection, into a fulfilment), `thenRun` is `.then(task)` (the task runs
only once the predecessor is fulfilled; a rejection passes through), and
`enqueue` composes them exactly as the code does.  JavaScript promise
continuations of a single chain run one at a time on the event loop, so a
task body is one atomic state transformation. -/

section Queue

variable {σ ε α : Type}

/-- `.catch(() => { })`: a fulfilled or rejected settlement becomes a
fulfilment (the handler returns `undefined`). -/
def settle : Except ε α → Except ε Unit
  | .ok _ => .ok ()
  | .error _ => .ok ()

/-- `.then(task)`: run the task after a fulfilment; a rejection propagates
without running the task. -/
def thenRun (p : σ × Except ε Unit) (task : σ → σ × Except ε α) : σ × Except ε α :=
  match p with
  | (s, .ok _) => task s
  | (s, .error e) => (s, .error e)

/-- `_enqueue`: the handle returned for a task, given the current queue
tail.  It settles with the task's own outcome, after the tail settles. -/
def enqueue (queue : σ → σ × Except ε Unit) (task : σ → σ × Except ε α) :
    σ → σ × Except ε α :=
  fun s =>
    let p := queue s
    thenRun (p.1, settle p.2) task

/-- `this.queue = nextTask`: the handle itself becomes the new tail (its
value is irrelevant to the next task, only its settlement is). -/
def demote (h : σ → σ × Except ε α) : σ → σ × Except ε Unit :=
  fun s => ((h s).1, (h s).2.map fun _ => ())

/-- Enqueue a list of tasks in submission order, starting from a given
tail; returns every caller's handle and the final tail. -/
def enqueueAll (queue : σ → σ × Except ε Unit) :
    List (σ → σ × Except ε α) → List (σ → σ × Except ε α) × (σ → σ × Except ε Unit)
  | [] => ([], queue)
  | t :: ts =>
      (enqueue queue t :: (enqueueAll (demote (enqueue queue t)) ts).1,
       (enqueueAll (demote (enqueue queue t)) ts).2)

/-- The initial queue: `this.queue = Promise.resolve()`. -/
def initQueue : σ → σ × Except ε Unit := fun s => (s, .ok ())

/-- Strictly sequential FIFO execution: each task body runs exactly once,
on the state its predecessor left behind, and its outcome (success or
failure) is recorded for its own caller without affecting the rest. -/
def runSeq : List (σ → σ × Except ε α) → σ → σ × List (Except ε α)
  | [], s => (s, [])
  | t :: ts, s =>
      let r := t s
      let rest := runSeq ts r.1
      (rest.1, r.2 :: rest.2)

end Queue

/-! ## Helper lemmas about the tree primitives -/

/-- `.catch(() => { })` always fulfils. -/
theorem settle_eq {ε α : Type} (r : Except ε α) : settle r = .ok () := by
  cases r <;> rfl

/-- A handle returned by `_enqueue` runs its task on the state left behind
by the queue tail, regardless of how the tail settled. -/
theorem enqueue_runs {σ ε α : Type} (queue : σ → σ × Except ε Unit)
    (task : σ → σ × Except ε α) (s : σ) :
    enqueue queue task s = task (queue s).1 := by
  simp [enqueue, settle_eq, thenRun]

/-- The promise chain built by `_enqueue` is equivalent to strictly
sequential FIFO execution: the handles' outcomes are the sequential
outcomes in submission order, and the final queue state is the
sequentially-threaded state. -/
theorem enqueueAll_runSeq {σ ε α : Type} :
    ∀ (ts : List (σ → σ × Except ε α)) (queue : σ → σ × Except ε Unit) (s : σ),
      ((enqueueAll queue ts).1.map fun h => (h s).2) = (runSeq ts (queue s).1).2
      ∧ ((enqueueAll queue ts).2 s).1 = (runSeq ts (queue s).1).1 := by
  intro ts
  induction ts with
  | nil => intro queue s; simp [enqueueAll, runSeq]
  | cons t ts ih =>
      intro queue s
      have hdem : ((demote (enqueue queue t)) s).1 = (t (queue s).1).1 := by
        simp [demote, enqueue_runs]
      constructor
      · simp only [enqueueAll, List.map_cons, runSeq]
        refine congrArg₂ _ ?_ ?_
        · rw [enqueue_runs]
        · have := (ih (demote (enqueue queue t)) s).1
          rw [hdem] at this
          exact this
      · simp only [enqueueAll, runSeq]
        have := (ih (demote (enqueue queue t)) s).2
        rw [hdem] at this
        exact this

/-- Every enqueued task yields exactly one handle. -/
theorem enqueueAll_length {σ ε α : Type} :
    ∀ (ts : List (σ → σ × Except ε α)) (queue : σ → σ × Except ε Unit),
      (enqueueAll queue ts).1.length = ts.length := by
  intro ts
  induction ts with
  | nil => intro queue; rfl
  | cons t ts ih => intro queue; simp [enqueueAll, ih]

/-! ## Operation-level helper lemmas -/

theorem validateID_ne_empty (sep : Char) (id : String)
    (h : validateID sep id = true) : id ≠ "" := by
  intro he
  subst he
  simp [validateID] at h

/-! ## The claims -/

/-- Claim C1: tasks enqueued on the promise chain of `_enqueue` run strictly
one at a time in submission (FIFO) order — the chained execution is
equivalent to sequential execution, each task body running exactly once on
the state left by its predecessor — a failing task never prevents the next
task from running, every submission yields its own handle, and only the
failing task's own handle carries the failure. -/
theorem queue_fifo_and_failure_isolation (σ ε α : Type)
    (ts : List (σ → σ × Except ε α)) (s : σ) :
    ((enqueueAll (initQueue : σ → σ × Except ε Unit) ts).1.map fun h => (h s).2)
        = (runSeq ts s).2
    ∧ ((enqueueAll (initQueue : σ → σ × Except ε Unit) ts).2 s).1 = (runSeq ts s).1
    ∧ (enqueueAll (initQueue : σ → σ × Except ε Unit) ts).1.length = ts.length := by
  have h := enqueueAll_runSeq ts (initQueue : σ → σ × Except ε Unit) s
  have hq : ((initQueue : σ → σ × Except ε Unit) s).1 = s := rfl
  rw [hq] at h
  exact ⟨h.1, h.2, enqueueAll_length ts _⟩

/-- Claim C5, counterexample: with the document `{a: null}` the raw walk
reaches the stored `null`, but `_find` returns the very same `null`
sentinel it returns for the absent key of the empty document, and `has`
answers `false` — a stored `null` is *not* distinguishable from an absent
key. -/
theorem null_sentinel_cex :
    findRaw (.obj [("a", .null)]) (partsOf '.' "a") = some .null
    ∧ find (.obj [("a", .null)]) (partsOf '.' "a") = .null
    ∧ find (.obj []) (partsOf '.' "a") = .null
    ∧ (has '.' "a" ⟨.stored (.obj [("a", .null)]), .absent⟩).out = .ok false :=
  ⟨rfl, rfl, rfl, rfl⟩

/-- Claim C5, amended: resolution of a path whose final segment is
explicitly bound to `null` returns the same `null` sentinel used for absent
keys (`current ?? null` collapses them), so `get` returns `null` and `has`
returns `false` for a stored `null`, exactly as for an absent key. -/
theorem null_collapse (sep : Char) (id : String) (d : JValue) (bs : FileState)
    (hval : validateID sep id = true)
    (hnull : findRaw d (partsOf sep id) = some .null) :
    find d (partsOf sep id) = .null
    ∧ (get sep id ⟨.stored d, bs⟩).out = .ok .null
    ∧ (has sep id ⟨.stored d, bs⟩).out = .ok false := by
  have hid := validateID_ne_empty sep id hval
  have hf : find d (partsOf sep id) = .null := by simp [find, hnull]
  refine ⟨hf, ?_, ?_⟩ <;> simp [get, has, read, hid, hval, hf, JValue.isNull]

theorem null_collapse_witness :
    find (.obj [("a", .null)]) (partsOf '.' "a") = .null
    ∧ (get '.' "a" ⟨.stored (.obj [("a", .null)]), .absent⟩).out = .ok .null
    ∧ (has '.' "a" ⟨.stored (.obj [("a", .null)]), .absent⟩).out = .ok false :=
  null_collapse '.' "a" (.obj [("a", .null)]) .absent (by decide) rfl

/-- Claim C8: `add` on a valid path whose stored value is present but
neither a number nor `null` (for instance a string) fails with the
type-mismatch error after the read, performing no write and leaving the
stored document unchanged. -/
theorem add_non_number_unchanged (sep : Char) (id : String) (q : Int) (d v : JValue)
    (bs : FileState) (hval : validateID sep id = true)
    (hv : find d (partsOf sep id) = v)
    (hnn : ∀ n, v ≠ JValue.num n) (hnl : v ≠ JValue.null) :
    add sep id (some (.num q)) ⟨.stored d, bs⟩
      = ⟨⟨.stored d, bs⟩, [.readP], .error .dataNotANumber⟩ := by
  have hid := validateID_ne_empty sep id hval
  cases v with
  | null => exact absurd rfl hnl
  | num n => exact absurd rfl (hnn n)
  | bool b => simp [add, read, hid, hval, hv]
  | str s => simp [add, read, hid, hval, hv]
  | arr xs => simp [add, read, hid, hval, hv]
  | obj fs => simp [add, read, hid, hval, hv]

theorem add_non_number_unchanged_witness :
    add '.' "a" (some (.num 5)) ⟨.stored (.obj [("a", .str "x")]), .absent⟩
      = ⟨⟨.stored (.obj [("a", .str "x")]), .absent⟩, [.readP], .error .dataNotANumber⟩ :=
  add_non_number_unchanged '.' "a" 5 (.obj [("a", .str "x")]) (.str "x") .absent
    (by decide) rfl (fun n h => nomatch h) (fun h => nomatch h)

/-- Claim C9: the read primitive self-heals a missing file by writing and
returning an empty map (through the write primitive), fails with the parse
error on malformed bytes — every reading operation built on it (`get`,
`has`, `all`) then fails with the parse error rather than returning a
partial or empty document — and returns the stored document otherwise. -/
theorem read_missing_and_malformed (bs : FileState) (v : JValue) (sep : Char)
    (id : String) (db : DB) (hid : id ≠ "") (hm : db.primary = .malformed) :
    read ⟨.absent, bs⟩ = ⟨⟨.stored (.obj []), bs⟩, [.readP, .writeP], .ok (.obj [])⟩
    ∧ read ⟨.malformed, bs⟩ = ⟨⟨.malformed, bs⟩, [.readP], .error .parseError⟩
    ∧ read ⟨.stored v, bs⟩ = ⟨⟨.stored v, bs⟩, [.readP], .ok v⟩
    ∧ (get sep id db).out = .error .parseError
    ∧ (has sep id db).out = .error .parseError
    ∧ (all db).out = .error .parseError := by
  refine ⟨rfl, rfl, rfl, ?_, ?_, ?_⟩ <;> simp [get, has, all, read, hid, hm]

theorem read_missing_and_malformed_witness :
    read ⟨.absent, .absent⟩
        = ⟨⟨.stored (.obj []), .absent⟩, [.readP, .writeP], .ok (.obj [])⟩
    ∧ (get '.' "a" ⟨.malformed, .absent⟩).out = .error .parseError :=
  ⟨(read_missing_and_malformed .absent .null '.' "a" ⟨.malformed, .absent⟩
      (by decide) rfl).1,
   (read_missing_and_malformed .absent .null '.' "a" ⟨.malformed, .absent⟩
      (by decide) rfl).2.2.2.1⟩

/-- Claim C10: `clear({confirm: true})` and `loadBackup` on a readable
backup never read the primary file — for *every* primary state, including
malformed content on which every reading operation fails, they succeed and
overwrite the primary file with well-formed serialized content. -/
theorem clear_loadBackup_no_primary_read (db db' : DB) (b : JValue) (fp : String)
    (hfp : fp ≠ "") (hb : db'.backup = .stored b) :
    clear (some true) db = ⟨⟨.stored (.obj []), db.backup⟩, [.writeP], .ok true⟩
    ∧ Ev.readP ∉ [Ev.writeP]
    ∧ loadBackup fp db' = ⟨⟨.stored b, db'.backup⟩, [.readB, .writeP], .ok true⟩
    ∧ Ev.readP ∉ [Ev.readB, Ev.writeP] := by
  refine ⟨rfl, by decide, ?_, by decide⟩
  simp [loadBackup, hfp, hb, write]

theorem clear_loadBackup_no_primary_read_witness :
    clear (some true) ⟨.malformed, .stored (.num 3)⟩
        = ⟨⟨.stored (.obj []), .stored (.num 3)⟩, [.writeP], .ok true⟩
    ∧ loadBackup "b.json" ⟨.malformed, .stored (.num 3)⟩
        = ⟨⟨.stored (.num 3), .stored (.num 3)⟩, [.readB, .writeP], .ok true⟩ :=
  ⟨(clear_loadBackup_no_primary_read ⟨.malformed, .stored (.num 3)⟩
      ⟨.malformed, .stored (.num 3)⟩ (.num 3) "b.json" (by decide) rfl).1,
   (clear_loadBackup_no_primary_read ⟨.malformed, .stored (.num 3)⟩
      ⟨.malformed, .stored (.num 3)⟩ (.num 3) "b.json" (by decide) rfl).2.2.1⟩

end NopeDB
